import Mathlib

/-!
# Shallow embedding of the AppBack hookah-slot backend

This file embeds the persistent data model (`models.py`), the data-access
layer (`rq.py`), and the FastAPI endpoint handlers (`main.py`) of the
repository as executable Lean definitions, and proves properties of the
slot-accrual, set-filled, registration and redemption logic.

The database is modelled as an in-memory state (`DB`): a list of user rows
and a list of stock rows, together with the next auto-increment primary
keys.  Every handler is a function `DB → ... → Except ApiError Resp × DB`:
the second component is the state the handler leaves behind (committed
sessions persist even when the handler subsequently raises), mirroring the
fact that each `rq.py` helper commits its own session.
-/

namespace AppBack

/-- A row of the `users` table (`models.py`, class `User`).  Profile
columns are nullable, hence `Option`. -/
structure User where
  id : Nat
  tg_id : Int
  first_name : Option String
  last_name : Option String
  phone : Option String
  username : Option String
deriving Repr, DecidableEq

/-- A row of the `stocks` table (`models.py`, class `Stock`). -/
structure Stock where
  id : Nat
  user_id : Nat
  title : String
  completed : Bool
deriving Repr, DecidableEq

/-- The database state: the two tables plus the auto-increment counters
for their primary keys.  Rows are kept in insertion order. -/
structure DB where
  users : List User
  stocks : List Stock
  nextUserId : Nat
  nextStockId : Nat
deriving Repr, DecidableEq

/-- The empty database, as produced by `init_db`. -/
def emptyDB : DB := { users := [], stocks := [], nextUserId := 0, nextStockId := 0 }

/-- The configurable application settings (`config.py`, class `Settings`). -/
structure Settings where
  MAX_STOCKS_PER_USER : Nat
  FREE_HOOKAH_TITLE : String
  PAID_HOOKAH_TITLE : String
  ADMIN_IDS : List Int
deriving Repr, DecidableEq

/-- The defaults declared in `config.py`. -/
def defaultSettings : Settings :=
  { MAX_STOCKS_PER_USER := 5
  , FREE_HOOKAH_TITLE := "Бесплатный кальян"
  , PAID_HOOKAH_TITLE := "Платный кальян"
  , ADMIN_IDS := [] }

/-- HTTP-level outcomes raised by the handlers (`HTTPException` status
classes used in `main.py`). -/
inductive ApiError where
  | badRequest (detail : String)     -- 400
  | unprocessable (detail : String)  -- 422
  | conflict (detail : String)       -- 409
  | forbidden (detail : String)      -- 403
  | internal (detail : String)       -- 500
deriving Repr, DecidableEq

/-! ## Data-access layer (`rq.py`) -/

/-- `rq.add_user`: return the existing user with this Telegram id, or
insert a fresh row with empty profile fields. -/
def add_user (db : DB) (tg_id : Int) : User × DB :=
  match db.users.find? (fun u => u.tg_id == tg_id) with
  | some u => (u, db)
  | none =>
    let u : User :=
      { id := db.nextUserId, tg_id := tg_id
      , first_name := none, last_name := none, phone := none, username := none }
    (u, { db with users := db.users ++ [u], nextUserId := db.nextUserId + 1 })

/-- `rq.get_user_by_tg_id`: read-only lookup, never creates. -/
def get_user_by_tg_id (db : DB) (tg_id : Int) : Option User :=
  db.users.find? (fun u => u.tg_id == tg_id)

/-- The row condition `Stock.user_id == user_id, Stock.completed == False`
used by the pending-stock queries in `rq.py`. -/
def isPendingOf (user_id : Nat) (s : Stock) : Bool :=
  s.user_id == user_id && s.completed == false

/-- The row condition `Stock.user_id == user_id, Stock.completed == True`
used by the completed-count queries in `rq.py`. -/
def isCompletedOf (user_id : Nat) (s : Stock) : Bool :=
  s.user_id == user_id && s.completed == true

/-- `rq.get_stocks`: all incomplete stocks of a user. -/
def get_stocks (db : DB) (user_id : Nat) : List Stock :=
  db.stocks.filter (isPendingOf user_id)

/-- The number of pending (incomplete) stocks of a user. -/
def pendingCount (db : DB) (user_id : Nat) : Nat :=
  (get_stocks db user_id).length

/-- `rq.get_completed_stocks_count` / the completed-count part of
`rq.get_stocks_summary`. -/
def completedCount (db : DB) (user_id : Nat) : Nat :=
  (db.stocks.filter (isCompletedOf user_id)).length

/-- `rq.get_stocks_summary`: `(active list, total, completed, available)`;
`total` and `available` are both the length of the active list. -/
def get_stocks_summary (db : DB) (user_id : Nat) : List Stock × Nat × Nat × Nat :=
  let active := get_stocks db user_id
  (active, active.length, completedCount db user_id, active.length)

/-- The row-wise effect of the bulk `UPDATE ... SET completed=True` in
`rq.set_stock`: complete the row when it is a pending row of this user. -/
def completePending (user_id : Nat) (s : Stock) : Stock :=
  if isPendingOf user_id s then { s with completed := true } else s

/-- `rq.set_stock`: flip every incomplete stock of the user to completed;
the `filled_slots` argument is received but never read.  Returns whether
any row was affected, and the new state. -/
def set_stock (db : DB) (user_id : Nat) (filled_slots : Int) : Bool × DB :=
  let affected := pendingCount db user_id
  (affected > 0, { db with stocks := db.stocks.map (completePending user_id) })

/-- `rq.increment_stock`: if the user already has at least
`MAX_STOCKS_PER_USER` pending stocks, complete them all and append a
pending free-hookah slot; otherwise append a pending paid slot. -/
def increment_stock (cfg : Settings) (db : DB) (user_id : Nat) : Stock × DB :=
  let current := get_stocks db user_id
  if current.length ≥ cfg.MAX_STOCKS_PER_USER then
    let db1 := (set_stock db user_id 0).2
    let slot : Stock :=
      { id := db1.nextStockId, user_id := user_id
      , title := cfg.FREE_HOOKAH_TITLE, completed := false }
    (slot, { db1 with stocks := db1.stocks ++ [slot], nextStockId := db1.nextStockId + 1 })
  else
    let slot : Stock :=
      { id := db.nextStockId, user_id := user_id
      , title := cfg.PAID_HOOKAH_TITLE, completed := false }
    (slot, { db with stocks := db.stocks ++ [slot], nextStockId := db.nextStockId + 1 })

/-- `rq.update_user_profile`: create the user with the given fields, or
overwrite only those fields that were passed (non-`None`). -/
def update_user_profile (db : DB) (tg_id : Int)
    (first_name last_name phone username : Option String) : User × DB :=
  match db.users.find? (fun u => u.tg_id == tg_id) with
  | none =>
    let u : User :=
      { id := db.nextUserId, tg_id := tg_id
      , first_name := first_name, last_name := last_name
      , phone := phone, username := username }
    (u, { db with users := db.users ++ [u], nextUserId := db.nextUserId + 1 })
  | some user =>
    let user' : User :=
      { user with
        first_name := if first_name.isSome then first_name else user.first_name
      , last_name := if last_name.isSome then last_name else user.last_name
      , phone := if phone.isSome then phone else user.phone
      , username := if username.isSome then username else user.username }
    (user', { db with users := db.users.map (fun u => if u.id == user.id then user' else u) })

/-! ## Request/response shapes (`schemas.py`) -/

/-- `schemas.StockUpdatePayload`.  Pydantic bounds `filledSlots` to
`0 ≤ n ≤ 100`; the bound is irrelevant to the handler logic below. -/
structure StockUpdatePayload where
  incrementSlot : Option Bool
  filledSlots : Option Int
deriving Repr, DecidableEq

/-- `schemas.StockListResponse`. -/
structure StockListResponse where
  stocks : List Stock
  total : Nat
  completed : Nat
  available : Nat
deriving Repr, DecidableEq

/-- `schemas.ProfileResponse`. -/
structure ProfileResponse where
  registered : Bool
  completedStocks : Nat
  user : Option User
deriving Repr, DecidableEq

/-- `schemas.RegisterPayload` (snake_case, validated by pydantic). -/
structure RegisterPayload where
  tg_id : Int
  first_name : Option String
  last_name : Option String
  phone : Option String
  username : Option String
deriving Repr, DecidableEq

/-- Python `str.strip()`: remove leading and trailing whitespace. -/
def strip (s : String) : String :=
  String.mk (((s.data.dropWhile Char.isWhitespace).reverse.dropWhile Char.isWhitespace).reverse)

/-- The character deletions performed by `schemas.RegisterPayload.validate_phone`
before `isdigit`: `v.replace('+', '').replace('-', '').replace(' ', '')`. -/
def phone_digits (s : String) : String :=
  String.mk (s.data.filter (fun c => !(c == '+' || c == '-' || c == ' ')))

/-- `schemas.RegisterPayload.validate_phone`: a non-empty phone must be all
digits after deleting `+`, `-` and spaces (Python `str.isdigit` is false on
the empty string).  No length requirement. -/
def validate_phone (v : Option String) : Bool :=
  match v with
  | none => true
  | some s =>
    s == "" || (decide (phone_digits s ≠ "") && (phone_digits s).data.all Char.isDigit)

/-! ## Endpoint handlers (`main.py`) -/

/-- The summary body returned by the stock endpoints. -/
def mkSummary (db : DB) (user_id : Nat) : StockListResponse :=
  let t := get_stocks_summary db user_id
  { stocks := t.1, total := t.2.1, completed := t.2.2.1, available := t.2.2.2 }

/-- `POST /api/stocks/{tg_id}` (`main.update_stock`).

The handler first runs `add_user` (committing a fresh user row when the id
was unseen) and only then inspects the payload.  When neither action is
supplied it raises `HTTPException(400)`; that exception is caught by the
handler's own trailing `except Exception` clause, which re-raises
`HTTPException(500, "An unexpected error occurred")`, so the caller
observes a 500, not the 400.  The best-effort Google-Sheets call has no
effect on the state and is omitted. -/
def update_stock (cfg : Settings) (db : DB) (tg_id : Int) (payload : StockUpdatePayload) :
    Except ApiError StockListResponse × DB :=
  let r := add_user db tg_id
  if payload.incrementSlot == some true then
    let db2 := (increment_stock cfg r.2 r.1.id).2
    (Except.ok (mkSummary db2 r.1.id), db2)
  else
    match payload.filledSlots with
    | some n =>
      let db2 := (set_stock r.2 r.1.id n).2
      (Except.ok (mkSummary db2 r.1.id), db2)
    | none =>
      (Except.error (ApiError.internal "An unexpected error occurred"), r.2)

/-- `GET /api/stocks/{tg_id}` (`main.get_stock`): creates the user if
absent, then returns the summary. -/
def get_stock (db : DB) (tg_id : Int) : Except ApiError StockListResponse × DB :=
  let r := add_user db tg_id
  (Except.ok (mkSummary r.2 r.1.id), r.2)

/-- `GET /api/main/{tg_id}` (`main.get_profile`): read-only; never creates
the user. -/
def get_profile (db : DB) (tg_id : Int) : Except ApiError ProfileResponse × DB :=
  match get_user_by_tg_id db tg_id with
  | none => (Except.ok { registered := false, completedStocks := 0, user := none }, db)
  | some u =>
    (Except.ok { registered := true, completedStocks := completedCount db u.id, user := some u }, db)

/-- `GET /api/free-hookahs/{tg_id}` (`main.get_free_hookahs`): creates the
user if absent and returns the `available` component of the summary. -/
def get_free_hookahs (db : DB) (tg_id : Int) : Except ApiError Nat × DB :=
  let r := add_user db tg_id
  (Except.ok (get_stocks_summary r.2 r.1.id).2.2.2, r.2)

/-- The phone-conflict test shared by both registration paths in
`main.register_user`: some user already holds this phone and it is not the
caller (the caller's row is absent, or the owner's primary key differs). -/
def phoneConflict (db : DB) (tg_id : Int) (phone : String) : Bool :=
  match db.users.find? (fun u => u.phone == some phone) with
  | none => false
  | some owner =>
    match db.users.find? (fun u => u.tg_id == tg_id) with
    | none => true
    | some self => owner.id != self.id

/-- The raw JSON body of `POST /api/register` after the `pick` key
normalisation in `main.register_user`: `pick` treats missing, `None` and
`""` values as absent, so each field is the picked value or `none`;
`tg_id` is the result of `int(...)` when that call succeeded. -/
structure RawBody where
  tg_id : Option Int
  first_name : Option String
  last_name : Option String
  phone : Option String
  username : Option String
deriving Repr, DecidableEq

/-- The raw-body branch of `main.register_user` (taken when the pydantic
payload failed to parse): validates `tg_id` (falsy ⇒ 422) and the phone
length (trimmed length < 5 ⇒ 422), then performs the manual upsert with the
phone-conflict pre-check (conflict ⇒ 409). -/
def register_raw (db : DB) (b : RawBody) : Except ApiError User × DB :=
  let first_name := b.first_name.getD ""
  let last_name := b.last_name.getD ""
  let phone := b.phone.getD ""
  match b.tg_id with
  | none => (Except.error (ApiError.unprocessable "tg_id is required"), db)
  | some tg =>
    if tg == 0 then
      (Except.error (ApiError.unprocessable "tg_id is required"), db)
    else if (strip phone).length < 5 then
      (Except.error (ApiError.unprocessable "phone is invalid"), db)
    else if (if phone != "" then phoneConflict db tg phone else false) then
      (Except.error (ApiError.conflict "Phone already in use"), db)
    else
      match db.users.find? (fun u => u.tg_id == tg) with
      | some user =>
        let user' : User :=
          { user with
            first_name := some first_name, last_name := some last_name
          , phone := some phone, username := b.username }
        (Except.ok user',
         { db with users := db.users.map (fun u => if u.id == user.id then user' else u) })
      | none =>
        let u : User :=
          { id := db.nextUserId, tg_id := tg
          , first_name := some first_name, last_name := some last_name
          , phone := some phone, username := b.username }
        (Except.ok u, { db with users := db.users ++ [u], nextUserId := db.nextUserId + 1 })

/-- The typed-payload branch of `main.register_user`: the phone-conflict
pre-check (409 on conflict; `if payload.phone:` is false for `None` and
`""`), then `rq.update_user_profile`.  No phone-length check exists on this
path. -/
def register_typed (db : DB) (p : RegisterPayload) : Except ApiError User × DB :=
  let conflict :=
    match p.phone with
    | none => false
    | some ph => if ph != "" then phoneConflict db p.tg_id ph else false
  if conflict then
    (Except.error (ApiError.conflict "Phone already in use"), db)
  else
    let r := update_user_profile db p.tg_id p.first_name p.last_name p.phone p.username
    (Except.ok r.1, r.2)

/-- `POST /api/register` (`main.register_user`): dispatch between the
raw-body fallback (pydantic parse failed, body is a JSON object) and the
typed-payload path; with neither, 422. -/
def register_user (db : DB) (payload : Option RegisterPayload) (body : Option RawBody) :
    Except ApiError User × DB :=
  match payload, body with
  | none, some b => register_raw db b
  | some p, _ => register_typed db p
  | none, none => (Except.error (ApiError.unprocessable "Invalid register payload"), db)

/-- `main._redeem_core` (shared by `GET`/`POST /redeem/{guest_tg_id}`):
500 when no admin ids are configured, 403 when the caller's id (parsed
from the `X-Telegram-ID` header) is not in the allow-list, otherwise
grant one slot to the guest via `add_user` + `increment_stock`. -/
def redeem_core (cfg : Settings) (db : DB) (guest_tg_id admin_tg_id : Int) :
    Except ApiError String × DB :=
  if cfg.ADMIN_IDS.isEmpty then
    (Except.error (ApiError.internal "Admin system not configured"), db)
  else if !(cfg.ADMIN_IDS.contains admin_tg_id) then
    (Except.error (ApiError.forbidden "Insufficient permissions"), db)
  else
    let r := add_user db guest_tg_id
    let db2 := (increment_stock cfg r.2 r.1.id).2
    (Except.ok ("Slot added for user " ++ toString guest_tg_id), db2)

/-! ## Operation sequences over the ledger -/

/-- One mutating ledger operation, as issued through the HTTP surface:
an increment request, a set-filled request, or an admin redemption. -/
inductive Op where
  | increment (tg_id : Int)
  | setFilled (tg_id : Int) (n : Int)
  | redeem (guest_tg_id admin_tg_id : Int)
deriving Repr, DecidableEq

/-- Apply one operation through the corresponding endpoint handler,
keeping the resulting state (errors leave whatever state the handler
committed). -/
def applyOp (cfg : Settings) (db : DB) : Op → DB
  | Op.increment tg =>
    (update_stock cfg db tg { incrementSlot := some true, filledSlots := none }).2
  | Op.setFilled tg n =>
    (update_stock cfg db tg { incrementSlot := none, filledSlots := some n }).2
  | Op.redeem g a => (redeem_core cfg db g a).2

/-- Run a sequence of operations from a starting state. -/
def runOps (cfg : Settings) : List Op → DB → DB
  | [], db => db
  | op :: ops, db => runOps cfg ops (applyOp cfg db op)

/-- Iterate the accrual action `n` times for a fixed (already existing)
user id. -/
def iterInc (cfg : Settings) : Nat → DB → Nat → DB
  | 0, db, _ => db
  | n + 1, db, uid => (increment_stock cfg (iterInc cfg n db uid) uid).2

/-- The fresh slot appended by the paid branch of `increment_stock`. -/
def paidSlot (cfg : Settings) (db : DB) (uid : Nat) : Stock :=
  { id := db.nextStockId, user_id := uid, title := cfg.PAID_HOOKAH_TITLE, completed := false }

/-- The fresh slot appended by the rollover branch of `increment_stock`. -/
def freeSlot (cfg : Settings) (db : DB) (uid : Nat) : Stock :=
  { id := db.nextStockId, user_id := uid, title := cfg.FREE_HOOKAH_TITLE, completed := false }

/-! ## Ledger lemmas -/

theorem isPendingOf_iff {t : Nat} {s : Stock} :
    isPendingOf t s = true ↔ s.user_id = t ∧ s.completed = false := by
  simp [isPendingOf]

theorem isCompletedOf_iff {t : Nat} {s : Stock} :
    isCompletedOf t s = true ↔ s.user_id = t ∧ s.completed = true := by
  simp [isCompletedOf]

theorem filter_pending_map_complete_self (l : List Stock) (t : Nat) :
    (l.map (completePending t)).filter (isPendingOf t) = [] := by
  induction l with
  | nil => rfl
  | cons s l ih =>
    by_cases h : isPendingOf t s = true
    · simp only [List.map_cons, List.filter_cons, completePending, h, if_true]
      have : isPendingOf t { s with completed := true } = false := by
        simp [isPendingOf]
      simp [this, ih]
    · simp only [List.map_cons, List.filter_cons, completePending, h, if_false]
      simp only [Bool.not_eq_true] at h
      simp [h, ih]

theorem filter_pending_map_complete_other (l : List Stock) (t u : Nat) (hu : u ≠ t) :
    (l.map (completePending t)).filter (isPendingOf u) = l.filter (isPendingOf u) := by
  induction l with
  | nil => rfl
  | cons s l ih =>
    by_cases h : isPendingOf t s = true
    · obtain ⟨h1, h2⟩ := isPendingOf_iff.mp h
      have hu1 : isPendingOf u s = false := by
        simp [isPendingOf, h1]
        intro hc
        exact absurd hc.symm hu
      have hu2 : isPendingOf u { s with completed := true } = false := by
        simp [isPendingOf]
      simp only [List.map_cons, List.filter_cons, completePending, h, if_true, hu1, hu2]
      simpa using ih
    · simp only [List.map_cons, List.filter_cons, completePending, h, if_false]
      by_cases hp : isPendingOf u s = true
      · simp [hp, ih]
      · simp only [Bool.not_eq_true] at hp
        simp [hp, ih]

theorem filter_completed_map_complete_self (l : List Stock) (t : Nat) :
    ((l.map (completePending t)).filter (isCompletedOf t)).length
      = (l.filter (isCompletedOf t)).length + (l.filter (isPendingOf t)).length := by
  induction l with
  | nil => rfl
  | cons s l ih =>
    by_cases h : isPendingOf t s = true
    · obtain ⟨h1, h2⟩ := isPendingOf_iff.mp h
      have hc0 : isCompletedOf t s = false := by
        simp [isCompletedOf, h2]
      have hc1 : isCompletedOf t { s with completed := true } = true := by
        simp [isCompletedOf, h1]
      simp only [List.map_cons, List.filter_cons, completePending, h, if_true, hc0, hc1]
      simp [ih]
      omega
    · have hs : completePending t s = s := by
        simp [completePending, h]
      by_cases hc : isCompletedOf t s = true
      · simp only [List.map_cons, List.filter_cons, completePending, h, if_false, hc]
        simp [hc, ih]
        omega
      · simp only [Bool.not_eq_true] at hc
        simp only [List.map_cons, List.filter_cons, completePending, h, if_false, hc]
        simp only [Bool.not_eq_true] at h
        simp [h, hc, ih]

theorem filter_completed_map_complete_other (l : List Stock) (t u : Nat) (hu : u ≠ t) :
    (l.map (completePending t)).filter (isCompletedOf u) = l.filter (isCompletedOf u) := by
  induction l with
  | nil => rfl
  | cons s l ih =>
    by_cases h : isPendingOf t s = true
    · obtain ⟨h1, h2⟩ := isPendingOf_iff.mp h
      have hu1 : isCompletedOf u s = false := by
        simp [isCompletedOf, h1]
        intro hc
        exact absurd hc.symm hu
      have hu2 : isCompletedOf u { s with completed := true } = false := by
        simp [isCompletedOf, h1]
        intro hc
        exact absurd hc.symm hu
      simp only [List.map_cons, List.filter_cons, completePending, h, if_true, hu1, hu2]
      simpa using ih
    · simp only [List.map_cons, List.filter_cons, completePending, h, if_false]
      by_cases hc : isCompletedOf u s = true
      · simp [hc, ih]
      · simp only [Bool.not_eq_true] at hc
        simp [hc, ih]

/-! ## Operation-level lemmas -/

theorem add_user_stocks (db : DB) (tg : Int) : ((add_user db tg).2).stocks = db.stocks := by
  unfold add_user
  split <;> rfl

theorem add_user_nextStockId (db : DB) (tg : Int) :
    ((add_user db tg).2).nextStockId = db.nextStockId := by
  unfold add_user
  split <;> rfl

theorem get_stocks_of_stocks_eq {db db' : DB} (h : db'.stocks = db.stocks) (u : Nat) :
    get_stocks db' u = get_stocks db u := by
  unfold get_stocks
  rw [h]

theorem completedCount_of_stocks_eq {db db' : DB} (h : db'.stocks = db.stocks) (u : Nat) :
    completedCount db' u = completedCount db u := by
  unfold completedCount
  rw [h]

theorem add_user_pendingCount (db : DB) (tg : Int) (u : Nat) :
    pendingCount ((add_user db tg).2) u = pendingCount db u := by
  unfold pendingCount
  rw [get_stocks_of_stocks_eq (add_user_stocks db tg)]

theorem set_stock_stocks (db : DB) (t : Nat) (n : Int) :
    ((set_stock db t n).2).stocks = db.stocks.map (completePending t) := rfl

theorem set_stock_users (db : DB) (t : Nat) (n : Int) :
    ((set_stock db t n).2).users = db.users := rfl

theorem set_stock_nextStockId (db : DB) (t : Nat) (n : Int) :
    ((set_stock db t n).2).nextStockId = db.nextStockId := rfl

theorem set_stock_pending_self (db : DB) (t : Nat) (n : Int) :
    pendingCount (set_stock db t n).2 t = 0 := by
  unfold pendingCount get_stocks
  rw [set_stock_stocks, filter_pending_map_complete_self]
  rfl

theorem set_stock_pending_other (db : DB) (t u : Nat) (n : Int) (hu : u ≠ t) :
    pendingCount (set_stock db t n).2 u = pendingCount db u := by
  unfold pendingCount get_stocks
  rw [set_stock_stocks, filter_pending_map_complete_other _ _ _ hu]

theorem set_stock_completed_self (db : DB) (t : Nat) (n : Int) :
    completedCount (set_stock db t n).2 t = completedCount db t + pendingCount db t := by
  unfold completedCount pendingCount get_stocks
  rw [set_stock_stocks, filter_completed_map_complete_self]

theorem increment_stock_lt (cfg : Settings) (db : DB) (uid : Nat)
    (h : pendingCount db uid < cfg.MAX_STOCKS_PER_USER) :
    (increment_stock cfg db uid).2
      = { db with
          stocks := db.stocks ++ [paidSlot cfg db uid]
          nextStockId := db.nextStockId + 1 } := by
  unfold increment_stock
  rw [if_neg]
  · rfl
  · unfold pendingCount at h
    omega

theorem increment_stock_ge (cfg : Settings) (db : DB) (uid : Nat)
    (h : cfg.MAX_STOCKS_PER_USER ≤ pendingCount db uid) :
    (increment_stock cfg db uid).2
      = { db with
          stocks := db.stocks.map (completePending uid) ++ [freeSlot cfg db uid]
          nextStockId := db.nextStockId + 1 } := by
  unfold increment_stock
  rw [if_pos]
  · rfl
  · unfold pendingCount at h
    omega

theorem pendingCount_append_one (db : DB) (s : Stock) (l : List Stock) (u : Nat) :
    pendingCount { db with stocks := l ++ [s], nextStockId := db.nextStockId + 1 } u
      = (l.filter (isPendingOf u)).length + (if isPendingOf u s then 1 else 0) := by
  unfold pendingCount get_stocks
  simp only [List.filter_append]
  by_cases h : isPendingOf u s = true
  · simp [h]
  · simp only [Bool.not_eq_true] at h
    simp [h]

theorem increment_pending_self_lt (cfg : Settings) (db : DB) (uid : Nat)
    (h : pendingCount db uid < cfg.MAX_STOCKS_PER_USER) :
    pendingCount (increment_stock cfg db uid).2 uid = pendingCount db uid + 1 := by
  rw [increment_stock_lt cfg db uid h, pendingCount_append_one]
  have : isPendingOf uid (paidSlot cfg db uid) = true := by
    simp [isPendingOf, paidSlot]
  rw [this]
  rfl

theorem increment_pending_self_ge (cfg : Settings) (db : DB) (uid : Nat)
    (h : cfg.MAX_STOCKS_PER_USER ≤ pendingCount db uid) :
    pendingCount (increment_stock cfg db uid).2 uid = 1 := by
  rw [increment_stock_ge cfg db uid h, pendingCount_append_one]
  have hfree : isPendingOf uid (freeSlot cfg db uid) = true := by
    simp [isPendingOf, freeSlot]
  rw [hfree, filter_pending_map_complete_self]
  rfl

theorem increment_pending_other (cfg : Settings) (db : DB) (t u : Nat) (hu : u ≠ t) :
    pendingCount (increment_stock cfg db t).2 u = pendingCount db u := by
  by_cases h : cfg.MAX_STOCKS_PER_USER ≤ pendingCount db t
  · rw [increment_stock_ge cfg db t h, pendingCount_append_one]
    have hfree : isPendingOf u (freeSlot cfg db t) = false := by
      simp [isPendingOf, freeSlot]
      intro hc
      exact absurd hc.symm hu
    rw [hfree, filter_pending_map_complete_other _ _ _ hu]
    simp [pendingCount, get_stocks]
  · rw [increment_stock_lt cfg db t (by omega), pendingCount_append_one]
    have hpaid : isPendingOf u (paidSlot cfg db t) = false := by
      simp [isPendingOf, paidSlot]
      intro hc
      exact absurd hc.symm hu
    rw [hpaid]
    simp [pendingCount, get_stocks]

theorem increment_completed_self_lt (cfg : Settings) (db : DB) (uid : Nat)
    (h : pendingCount db uid < cfg.MAX_STOCKS_PER_USER) :
    completedCount (increment_stock cfg db uid).2 uid = completedCount db uid := by
  rw [increment_stock_lt cfg db uid h]
  unfold completedCount
  simp only [List.filter_append]
  have : isCompletedOf uid (paidSlot cfg db uid) = false := by
    simp [isCompletedOf, paidSlot]
  simp [this]

theorem increment_completed_self_ge (cfg : Settings) (db : DB) (uid : Nat)
    (h : cfg.MAX_STOCKS_PER_USER ≤ pendingCount db uid) :
    completedCount (increment_stock cfg db uid).2 uid
      = completedCount db uid + pendingCount db uid := by
  rw [increment_stock_ge cfg db uid h]
  unfold completedCount
  simp only [List.filter_append]
  have : isCompletedOf uid (freeSlot cfg db uid) = false := by
    simp [isCompletedOf, freeSlot]
  simp [this, filter_completed_map_complete_self]
  rfl

theorem increment_get_stocks_ge (cfg : Settings) (db : DB) (uid : Nat)
    (h : cfg.MAX_STOCKS_PER_USER ≤ pendingCount db uid) :
    get_stocks (increment_stock cfg db uid).2 uid = [freeSlot cfg db uid] := by
  rw [increment_stock_ge cfg db uid h]
  unfold get_stocks
  simp only [List.filter_append, filter_pending_map_complete_self]
  have : isPendingOf uid (freeSlot cfg db uid) = true := by
    simp [isPendingOf, freeSlot]
  simp [this]

/-! ## Invariant machinery -/

theorem applyOp_increment (cfg : Settings) (db : DB) (tg : Int) :
    applyOp cfg db (Op.increment tg)
      = (increment_stock cfg (add_user db tg).2 (add_user db tg).1.id).2 := rfl

theorem applyOp_setFilled (cfg : Settings) (db : DB) (tg : Int) (n : Int) :
    applyOp cfg db (Op.setFilled tg n)
      = (set_stock (add_user db tg).2 (add_user db tg).1.id n).2 := rfl

theorem increment_pending_le (cfg : Settings) (hM : 1 ≤ cfg.MAX_STOCKS_PER_USER)
    (db : DB) (t : Nat) (h : ∀ v, pendingCount db v ≤ cfg.MAX_STOCKS_PER_USER) (u : Nat) :
    pendingCount (increment_stock cfg db t).2 u ≤ cfg.MAX_STOCKS_PER_USER := by
  by_cases hut : u = t
  · subst hut
    by_cases hge : cfg.MAX_STOCKS_PER_USER ≤ pendingCount db u
    · rw [increment_pending_self_ge cfg db u hge]
      omega
    · rw [increment_pending_self_lt cfg db u (by omega)]
      have hb := h u
      omega
  · rw [increment_pending_other cfg db t u hut]
    exact h u

theorem applyOp_pending_le (cfg : Settings) (hM : 1 ≤ cfg.MAX_STOCKS_PER_USER)
    (db : DB) (op : Op) (h : ∀ v, pendingCount db v ≤ cfg.MAX_STOCKS_PER_USER) (u : Nat) :
    pendingCount (applyOp cfg db op) u ≤ cfg.MAX_STOCKS_PER_USER := by
  cases op with
  | increment tg =>
    rw [applyOp_increment]
    exact increment_pending_le cfg hM (add_user db tg).2 (add_user db tg).1.id
      (fun v => by rw [add_user_pendingCount]; exact h v) u
  | setFilled tg n =>
    rw [applyOp_setFilled]
    by_cases hut : u = (add_user db tg).1.id
    · rw [hut, set_stock_pending_self]
      omega
    · rw [set_stock_pending_other _ _ _ _ hut, add_user_pendingCount]
      exact h u
  | redeem g a =>
    show pendingCount (redeem_core cfg db g a).2 u ≤ cfg.MAX_STOCKS_PER_USER
    unfold redeem_core
    by_cases he : cfg.ADMIN_IDS.isEmpty = true
    · simp only [he, if_true]
      exact h u
    · simp only [he, if_false]
      by_cases hc : cfg.ADMIN_IDS.contains a = true
      · simp only [hc, Bool.not_true, if_false]
        exact increment_pending_le cfg hM (add_user db g).2 (add_user db g).1.id
          (fun v => by rw [add_user_pendingCount]; exact h v) u
      · simp only [Bool.not_eq_true] at hc
        simp only [hc, Bool.not_false, if_true]
        exact h u

theorem runOps_pending_le (cfg : Settings) (hM : 1 ≤ cfg.MAX_STOCKS_PER_USER) :
    ∀ (ops : List Op) (db : DB),
      (∀ v, pendingCount db v ≤ cfg.MAX_STOCKS_PER_USER) →
      ∀ u, pendingCount (runOps cfg ops db) u ≤ cfg.MAX_STOCKS_PER_USER := by
  intro ops
  induction ops with
  | nil => intro db h u; exact h u
  | cons op ops ih =>
    intro db h u
    exact ih (applyOp cfg db op) (fun v => applyOp_pending_le cfg hM db op h v) u

theorem iterInc_pending (cfg : Settings) (db : DB) (uid : Nat) (k : Nat)
    (h0 : pendingCount db uid = 0) (hk : k ≤ cfg.MAX_STOCKS_PER_USER) :
    pendingCount (iterInc cfg k db uid) uid = k
    ∧ completedCount (iterInc cfg k db uid) uid = completedCount db uid := by
  induction k with
  | zero => exact ⟨h0, rfl⟩
  | succ k ih =>
    obtain ⟨hp, hc⟩ := ih (by omega)
    have hlt : pendingCount (iterInc cfg k db uid) uid < cfg.MAX_STOCKS_PER_USER := by
      omega
    have hstep : iterInc cfg (k + 1) db uid
        = (increment_stock cfg (iterInc cfg k db uid) uid).2 := rfl
    constructor
    · rw [hstep, increment_pending_self_lt _ _ _ hlt, hp]
    · rw [hstep, increment_completed_self_lt _ _ _ hlt, hc]

theorem get_stocks_fresh (db : DB) (u : Nat) (hfresh : ∀ s ∈ db.stocks, s.user_id ≠ u) :
    get_stocks db u = [] := by
  unfold get_stocks
  refine List.filter_eq_nil_iff.mpr ?_
  intro a ha hcon
  obtain ⟨h1, _⟩ := isPendingOf_iff.mp hcon
  exact hfresh a ha h1

theorem completedCount_fresh (db : DB) (u : Nat) (hfresh : ∀ s ∈ db.stocks, s.user_id ≠ u) :
    completedCount db u = 0 := by
  unfold completedCount
  have : db.stocks.filter (isCompletedOf u) = [] := by
    refine List.filter_eq_nil_iff.mpr ?_
    intro a ha hcon
    obtain ⟨h1, _⟩ := isCompletedOf_iff.mp hcon
    exact hfresh a ha h1
  rw [this]
  rfl

/-! ## Lookup lemmas for the registration reconciler -/

theorem find_append_of_none {α : Type} (p : α → Bool) (x : α) (hx : p x = true) :
    ∀ l : List α, l.find? p = none → (l ++ [x]).find? p = some x := by
  intro l
  induction l with
  | nil =>
    intro _
    exact List.find?_cons_of_pos [] hx
  | cons a l ih =>
    intro h
    have hpa : p a = false := by
      cases hh : p a
      · rfl
      · rw [List.find?_cons_of_pos _ hh] at h
        exact absurd h (by simp)
    have hl : l.find? p = none := by
      rwa [List.find?_cons_of_neg _ (by simp [hpa])] at h
    rw [List.cons_append, List.find?_cons_of_neg _ (by simp [hpa])]
    exact ih hl

theorem find_map_g {p : User → Bool} {self u1 : User} {g : User → User}
    (hp1 : p u1 = true)
    (hg_self : ∀ u, u.id = self.id → g u = u1)
    (hg_other : ∀ u, u.id ≠ self.id → g u = u) :
    ∀ l : List User, l.find? p = some self → (l.map g).find? p = some u1 := by
  intro l
  induction l with
  | nil =>
    intro h
    simp at h
  | cons a l ih =>
    intro h
    by_cases ha : a.id = self.id
    · rw [List.map_cons, hg_self a ha]
      exact List.find?_cons_of_pos _ hp1
    · by_cases hpa : p a = true
      · rw [List.find?_cons_of_pos _ hpa] at h
        injection h with hh
        subst hh
        exact absurd rfl ha
      · rw [List.find?_cons_of_neg _ hpa] at h
        rw [List.map_cons, hg_other a ha, List.find?_cons_of_neg _ hpa]
        exact ih h

theorem find_map_g_none {q p : User → Bool} {self u1 : User} {g : User → User}
    (hq1 : q u1 = true)
    (hg_self : ∀ u, u.id = self.id → g u = u1)
    (hg_other : ∀ u, u.id ≠ self.id → g u = u) :
    ∀ l : List User, l.find? q = none → l.find? p = some self →
      (l.map g).find? q = some u1 := by
  intro l
  induction l with
  | nil =>
    intro _ hself
    simp at hself
  | cons a l ih =>
    intro hq hself
    have hqa : q a = false := by
      cases hh : q a
      · rfl
      · rw [List.find?_cons_of_pos _ hh] at hq
        exact absurd hq (by simp)
    have hqtl : l.find? q = none := by
      rwa [List.find?_cons_of_neg _ (by simp [hqa])] at hq
    by_cases ha : a.id = self.id
    · rw [List.map_cons, hg_self a ha]
      exact List.find?_cons_of_pos _ hq1
    · rw [List.map_cons, hg_other a ha, List.find?_cons_of_neg _ (by simp [hqa])]
      by_cases hpa : p a = true
      · rw [List.find?_cons_of_pos _ hpa] at hself
        injection hself with hh
        subst hh
        exact absurd rfl ha
      · rw [List.find?_cons_of_neg _ hpa] at hself
        exact ih hqtl hself

theorem find_map_g_same {q : User → Bool} {self w u1 : User} {g : User → User}
    (hq1 : q u1 = true) (hw : w.id = self.id)
    (hg_self : ∀ u, u.id = self.id → g u = u1)
    (hg_other : ∀ u, u.id ≠ self.id → g u = u) :
    ∀ l : List User, l.find? q = some w → (l.map g).find? q = some u1 := by
  intro l
  induction l with
  | nil =>
    intro h
    simp at h
  | cons a l ih =>
    intro h
    by_cases ha : a.id = self.id
    · rw [List.map_cons, hg_self a ha]
      exact List.find?_cons_of_pos _ hq1
    · by_cases hqa : q a = true
      · rw [List.find?_cons_of_pos _ hqa] at h
        injection h with hh
        subst hh
        exact absurd hw ha
      · rw [List.find?_cons_of_neg _ hqa] at h
        rw [List.map_cons, hg_other a ha, List.find?_cons_of_neg _ hqa]
        exact ih h

/-- A second raw-path registration against a database produced by a first
create: the request finds the created row again and overwrites it with the
identical values. -/
theorem register_raw_roundtrip_create (db : DB) (b : RawBody) (tg : Int) (u1 : User)
    (hu1 : u1 = { id := db.nextUserId, tg_id := tg, first_name := some (b.first_name.getD ""), last_name := some (b.last_name.getD ""), phone := some (b.phone.getD ""), username := b.username })
    (htg : b.tg_id = some tg)
    (h0 : ¬(tg == 0) = true)
    (hlen : ¬(strip (b.phone.getD "")).length < 5)
    (hne : ((b.phone.getD "") != "") = true)
    (hfind : db.users.find? (fun u => u.tg_id == tg) = none)
    (hconf : phoneConflict db tg (b.phone.getD "") = false) :
    (register_raw { db with users := db.users ++ [u1], nextUserId := db.nextUserId + 1 } b).1
      = Except.ok u1 := by
  have hp1 : (u1.tg_id == tg) = true := by simp [hu1]
  have hq1 : (u1.phone == some (b.phone.getD "")) = true := by simp [hu1]
  have hqnone : db.users.find? (fun u => u.phone == some (b.phone.getD "")) = none := by
    cases hq : db.users.find? (fun u => u.phone == some (b.phone.getD "")) with
    | none => rfl
    | some w =>
      simp only [phoneConflict, hq, hfind] at hconf
      exact absurd hconf (by simp)
  have hfind2 : (db.users ++ [u1]).find? (fun u => u.tg_id == tg) = some u1 :=
    find_append_of_none (fun u => u.tg_id == tg) u1 hp1 db.users hfind
  have hfq2 : (db.users ++ [u1]).find? (fun u => u.phone == some (b.phone.getD "")) = some u1 :=
    find_append_of_none (fun u => u.phone == some (b.phone.getD "")) u1 hq1 db.users hqnone
  have hconf2 : phoneConflict { db with users := db.users ++ [u1], nextUserId := db.nextUserId + 1 } tg (b.phone.getD "") = false := by
    unfold phoneConflict
    dsimp only
    rw [hfq2, hfind2]
    simp
  unfold register_raw
  rw [htg]
  simp only [h0, Bool.false_eq_true, if_false, hlen, hne, if_true, hconf2]
  rw [hfind2]
  simp [hu1]

/-- A second raw-path registration against a database produced by a first
update: the request finds the updated row again and overwrites it with the
identical values. -/
theorem register_raw_roundtrip_update (db : DB) (b : RawBody) (tg : Int) (user u1 : User)
    (hu1 : u1 = { id := user.id, tg_id := user.tg_id, first_name := some (b.first_name.getD ""), last_name := some (b.last_name.getD ""), phone := some (b.phone.getD ""), username := b.username })
    (htg : b.tg_id = some tg)
    (h0 : ¬(tg == 0) = true)
    (hlen : ¬(strip (b.phone.getD "")).length < 5)
    (hne : ((b.phone.getD "") != "") = true)
    (hfind : db.users.find? (fun u => u.tg_id == tg) = some user)
    (hconf : phoneConflict db tg (b.phone.getD "") = false) :
    (register_raw { db with users := db.users.map (fun u => if (u.id == user.id) = true then u1 else u) } b).1
      = Except.ok u1 := by
  have hpu := List.find?_some hfind
  have hp1 : (u1.tg_id == tg) = true := by
    rw [hu1]
    exact hpu
  have hq1 : (u1.phone == some (b.phone.getD "")) = true := by simp [hu1]
  have hg_self : ∀ u : User, u.id = user.id →
      (fun u => if (u.id == user.id) = true then u1 else u) u = u1 :=
    fun u hu => if_pos (by simp [hu])
  have hg_other : ∀ u : User, u.id ≠ user.id →
      (fun u => if (u.id == user.id) = true then u1 else u) u = u :=
    fun u hu => if_neg (by simp [hu])
  have hfind2 : (db.users.map (fun u => if (u.id == user.id) = true then u1 else u)).find?
      (fun u => u.tg_id == tg) = some u1 :=
    find_map_g hp1 hg_self hg_other db.users hfind
  have hfq2 : (db.users.map (fun u => if (u.id == user.id) = true then u1 else u)).find?
      (fun u => u.phone == some (b.phone.getD "")) = some u1 := by
    cases hq : db.users.find? (fun u => u.phone == some (b.phone.getD "")) with
    | none => exact find_map_g_none hq1 hg_self hg_other db.users hq hfind
    | some w =>
      simp only [phoneConflict, hq, hfind] at hconf
      have hw : w.id = user.id := by simpa using hconf
      exact find_map_g_same hq1 hw hg_self hg_other db.users hq
  have hconf2 : phoneConflict
      { db with users := db.users.map (fun u => if (u.id == user.id) = true then u1 else u) }
      tg (b.phone.getD "") = false := by
    unfold phoneConflict
    dsimp only
    rw [hfq2, hfind2]
    simp
  unfold register_raw
  rw [htg]
  simp only [h0, Bool.false_eq_true, if_false, hlen, hne, if_true, hconf2]
  rw [hfind2]
  simp [hu1]

/-- Re-applying the `update_user_profile` field rule to a field that was
already produced by it yields the same value. -/
theorem upd_field (o a : Option String) :
    (if o.isSome = true then o else (if o.isSome = true then o else a))
      = (if o.isSome = true then o else a) := by
  by_cases h : o.isSome = true <;> simp [h]

/-- A second typed-path registration against a database produced by a
first create (`update_user_profile` inserted the row): the request finds
the created row again, sees no phone conflict, and overwrites it with
identical values. -/
theorem register_typed_roundtrip_create (db : DB) (p : RegisterPayload) (u1 : User)
    (hu1 : u1 = { id := db.nextUserId, tg_id := p.tg_id, first_name := p.first_name, last_name := p.last_name, phone := p.phone, username := p.username })
    (hcf : ¬(match p.phone with
        | none => false
        | some ph => if (ph != "") = true then phoneConflict db p.tg_id ph else false) = true)
    (hfind : db.users.find? (fun u => u.tg_id == p.tg_id) = none) :
    (register_typed { db with users := db.users ++ [u1], nextUserId := db.nextUserId + 1 } p).1
      = Except.ok u1 := by
  have hp1 : (u1.tg_id == p.tg_id) = true := by simp [hu1]
  have hfind2 : (db.users ++ [u1]).find? (fun u => u.tg_id == p.tg_id) = some u1 :=
    find_append_of_none (fun u => u.tg_id == p.tg_id) u1 hp1 db.users hfind
  unfold register_typed
  cases hp : p.phone with
  | none =>
    simp only [hp, Bool.false_eq_true, if_false]
    unfold update_user_profile
    dsimp only
    rw [hfind2]
    simp [hu1]
  | some ph =>
    rw [hp] at hcf
    by_cases hb : (ph != "") = true
    · rw [hp] at hu1
      have hcf1 : phoneConflict db p.tg_id ph = false := by
        simp only [hb, if_true] at hcf
        simpa using hcf
      have hq1 : (u1.phone == some ph) = true := by simp [hu1]
      have hqnone : db.users.find? (fun u => u.phone == some ph) = none := by
        cases hq : db.users.find? (fun u => u.phone == some ph) with
        | none => rfl
        | some w =>
          simp only [phoneConflict, hq, hfind] at hcf1
          exact absurd hcf1 (by simp)
      have hfq2 : (db.users ++ [u1]).find? (fun u => u.phone == some ph) = some u1 :=
        find_append_of_none (fun u => u.phone == some ph) u1 hq1 db.users hqnone
      have hcf2 : phoneConflict { db with users := db.users ++ [u1], nextUserId := db.nextUserId + 1 } p.tg_id ph = false := by
        unfold phoneConflict
        dsimp only
        rw [hfq2, hfind2]
        simp
      simp only [hp, hb, if_true, hcf2, Bool.false_eq_true, if_false]
      unfold update_user_profile
      dsimp only
      rw [hfind2]
      simp [hu1, hp]
    · simp only [hp, hb, if_false, Bool.false_eq_true]
      unfold update_user_profile
      dsimp only
      rw [hfind2]
      simp [hu1, hp]

/-- A second typed-path registration against a database produced by a
first update (`update_user_profile` overwrote the row): the request finds
the updated row again, sees no phone conflict, and overwrites it with
identical values. -/
theorem register_typed_roundtrip_update (db : DB) (p : RegisterPayload) (user u1 : User)
    (hu1 : u1 = { id := user.id, tg_id := user.tg_id, first_name := if p.first_name.isSome = true then p.first_name else user.first_name, last_name := if p.last_name.isSome = true then p.last_name else user.last_name, phone := if p.phone.isSome = true then p.phone else user.phone, username := if p.username.isSome = true then p.username else user.username })
    (hcf : ¬(match p.phone with
        | none => false
        | some ph => if (ph != "") = true then phoneConflict db p.tg_id ph else false) = true)
    (hfind : db.users.find? (fun u => u.tg_id == p.tg_id) = some user) :
    (register_typed { db with users := db.users.map (fun u => if (u.id == user.id) = true then u1 else u) } p).1
      = Except.ok u1 := by
  have hpu := List.find?_some hfind
  have hp1 : (u1.tg_id == p.tg_id) = true := by
    rw [hu1]
    exact hpu
  have hg_self : ∀ u : User, u.id = user.id →
      (fun u => if (u.id == user.id) = true then u1 else u) u = u1 :=
    fun u hu => if_pos (by simp [hu])
  have hg_other : ∀ u : User, u.id ≠ user.id →
      (fun u => if (u.id == user.id) = true then u1 else u) u = u :=
    fun u hu => if_neg (by simp [hu])
  have hfind2 : (db.users.map (fun u => if (u.id == user.id) = true then u1 else u)).find?
      (fun u => u.tg_id == p.tg_id) = some u1 :=
    find_map_g hp1 hg_self hg_other db.users hfind
  unfold register_typed
  cases hp : p.phone with
  | none =>
    simp only [hp, Bool.false_eq_true, if_false]
    unfold update_user_profile
    dsimp only
    rw [hfind2]
    simp [hu1, upd_field]
  | some ph =>
    rw [hp] at hcf
    by_cases hb : (ph != "") = true
    · rw [hp] at hu1
      have hcf1 : phoneConflict db p.tg_id ph = false := by
        simp only [hb, if_true] at hcf
        simpa using hcf
      have hq1 : (u1.phone == some ph) = true := by simp [hu1]
      have hfq2 : (db.users.map (fun u => if (u.id == user.id) = true then u1 else u)).find?
          (fun u => u.phone == some ph) = some u1 := by
        cases hq : db.users.find? (fun u => u.phone == some ph) with
        | none => exact find_map_g_none hq1 hg_self hg_other db.users hq hfind
        | some w =>
          simp only [phoneConflict, hq, hfind] at hcf1
          have hw : w.id = user.id := by simpa using hcf1
          exact find_map_g_same hq1 hw hg_self hg_other db.users hq
      have hcf2 : phoneConflict
          { db with users := db.users.map (fun u => if (u.id == user.id) = true then u1 else u) }
          p.tg_id ph = false := by
        unfold phoneConflict
        dsimp only
        rw [hfq2, hfind2]
        simp
      simp only [hp, hb, if_true, hcf2, Bool.false_eq_true, if_false]
      unfold update_user_profile
      dsimp only
      rw [hfind2]
      simp [hu1, hp, upd_field]
    · simp only [hp, hb, if_false, Bool.false_eq_true]
      unfold update_user_profile
      dsimp only
      rw [hfind2]
      simp [hu1, hp, upd_field]

/-! ## Claim theorems -/

/-- C1 (counterexample): on a fresh user, performing the increment action
exactly `MAX_STOCKS_PER_USER = 5` times does NOT complete the prior pending
records and does NOT create a free-reward record: it leaves five pending
records, zero completed records, and every pending record carries the paid
title.  The rollover claimed by the spec happens only on the sixth
increment. -/
theorem C1_counterexample :
    pendingCount
        (iterInc defaultSettings 5 (add_user emptyDB 1).2 (add_user emptyDB 1).1.id)
        (add_user emptyDB 1).1.id = 5
    ∧ completedCount
        (iterInc defaultSettings 5 (add_user emptyDB 1).2 (add_user emptyDB 1).1.id)
        (add_user emptyDB 1).1.id = 0
    ∧ (get_stocks
        (iterInc defaultSettings 5 (add_user emptyDB 1).2 (add_user emptyDB 1).1.id)
        (add_user emptyDB 1).1.id).all
        (fun s => s.title == defaultSettings.PAID_HOOKAH_TITLE) = true := by
  decide

/-- C1 (amended): from zero pending records, `MAX_STOCKS_PER_USER = 5`
increments yield five pending records and no change to the completed
count; the rollover happens on the increment after that (the sixth): all
five prior pending records become completed (completed count rises by 5)
and exactly one new pending record remains, labeled with the free-reward
title. -/
theorem C1_amended (db : DB) (uid : Nat) (h : pendingCount db uid = 0) :
    pendingCount (iterInc defaultSettings 5 db uid) uid = 5
    ∧ completedCount (iterInc defaultSettings 5 db uid) uid = completedCount db uid
    ∧ pendingCount (iterInc defaultSettings 6 db uid) uid = 1
    ∧ (∀ s ∈ get_stocks (iterInc defaultSettings 6 db uid) uid,
        s.title = defaultSettings.FREE_HOOKAH_TITLE ∧ s.completed = false)
    ∧ completedCount (iterInc defaultSettings 6 db uid) uid = completedCount db uid + 5 := by
  obtain ⟨hp5, hc5⟩ := iterInc_pending defaultSettings db uid 5 h (by norm_num [defaultSettings])
  have hge : defaultSettings.MAX_STOCKS_PER_USER
      ≤ pendingCount (iterInc defaultSettings 5 db uid) uid := by
    rw [hp5]
    norm_num [defaultSettings]
  have hstep : iterInc defaultSettings 6 db uid
      = (increment_stock defaultSettings (iterInc defaultSettings 5 db uid) uid).2 := rfl
  refine ⟨hp5, hc5, ?_, ?_, ?_⟩
  · rw [hstep, increment_pending_self_ge _ _ _ hge]
  · rw [hstep, increment_get_stocks_ge _ _ _ hge]
    intro s hs
    rw [List.mem_singleton] at hs
    subst hs
    exact ⟨rfl, rfl⟩
  · rw [hstep, increment_completed_self_ge _ _ _ hge, hc5, hp5]

/-- C1 (amended) witness at a concrete input: a fresh user of the empty
database. -/
theorem C1_amended_witness :
    pendingCount (add_user emptyDB 1).2 0 = 0
    ∧ pendingCount (iterInc defaultSettings 6 (add_user emptyDB 1).2 0) 0 = 1 :=
  ⟨by decide, (C1_amended (add_user emptyDB 1).2 0 (by decide)).2.2.1⟩

/-- C2: starting from the empty database, after any sequence of ledger
operations issued through the HTTP surface (increment, set-filled, admin
redeem), every user's pending-record count is at most
`MAX_STOCKS_PER_USER = 5`. -/
theorem C2_pending_bounded (ops : List Op) (uid : Nat) :
    pendingCount (runOps defaultSettings ops emptyDB) uid ≤ 5 := by
  exact runOps_pending_le defaultSettings (by norm_num [defaultSettings]) ops emptyDB
    (fun v => by simp [pendingCount, get_stocks, emptyDB]) uid

/-- C5: for every user and every prior state, the set-filled action leaves
zero pending records (marking every previously pending record completed:
the completed count rises by exactly the prior pending count), and the
client-supplied `filledSlots` integer is ignored entirely — both by
`set_stock` itself and by the `POST /api/stocks` handler. -/
theorem C5_set_filled (cfg : Settings) (db : DB) (uid : Nat) (tg : Int) (n m : Int) :
    pendingCount (set_stock db uid n).2 uid = 0
    ∧ completedCount (set_stock db uid n).2 uid = completedCount db uid + pendingCount db uid
    ∧ set_stock db uid n = set_stock db uid m
    ∧ update_stock cfg db tg { incrementSlot := none, filledSlots := some n }
        = update_stock cfg db tg { incrementSlot := none, filledSlots := some m } :=
  ⟨set_stock_pending_self db uid n, set_stock_completed_self db uid n, rfl, rfl⟩

/-- C3 (counterexample): a `POST /api/stocks` request for a never-seen
externalId that supplies neither `incrementSlot` nor `filledSlots` does
not produce a client-error rejection before mutation: the handler answers
with a 500 Internal Server Error (its own `except Exception` clause
swallows the 400 it raised), and a User record has been created. -/
theorem C3_counterexample :
    (update_stock defaultSettings emptyDB 7
        { incrementSlot := none, filledSlots := none }).1
      = Except.error (ApiError.internal "An unexpected error occurred")
    ∧ ((update_stock defaultSettings emptyDB 7
        { incrementSlot := none, filledSlots := none }).2).users
      = [{ id := 0, tg_id := 7, first_name := none, last_name := none
         , phone := none, username := none }] :=
  ⟨rfl, rfl⟩

/-- C3 (amended): a `POST /api/stocks` request that supplies neither
`incrementSlot` nor `filledSlots` fails — but with a 500 Internal Server
Error (the handler converts its own 400 via the generic exception
handler), and only after `add_user` has run: the slot ledger is unchanged,
while a User record is created for a previously-unseen externalId. -/
theorem C3_amended (cfg : Settings) (db : DB) (tg : Int) (p : StockUpdatePayload)
    (h1 : p.incrementSlot = none) (h2 : p.filledSlots = none) :
    update_stock cfg db tg p
      = (Except.error (ApiError.internal "An unexpected error occurred"), (add_user db tg).2)
    ∧ ((add_user db tg).2).stocks = db.stocks := by
  constructor
  · unfold update_stock
    rw [h1, h2]
    rfl
  · exact add_user_stocks db tg

/-- C3 (amended) witness at a concrete input. -/
theorem C3_amended_witness :
    update_stock defaultSettings emptyDB 7 { incrementSlot := none, filledSlots := none }
      = (Except.error (ApiError.internal "An unexpected error occurred"),
         (add_user emptyDB 7).2)
    ∧ ((add_user emptyDB 7).2).stocks = emptyDB.stocks :=
  C3_amended defaultSettings emptyDB 7 { incrementSlot := none, filledSlots := none } rfl rfl

/-- C8: `GET /api/main/{externalId}` for a never-seen externalId returns
`registered:false, completedStocks:0` and leaves the stored state
literally identical — in particular no User record is created. -/
theorem C8_profile_no_create (db : DB) (tg : Int) (h : get_user_by_tg_id db tg = none) :
    get_profile db tg
      = (Except.ok { registered := false, completedStocks := 0, user := none }, db) := by
  unfold get_profile
  rw [h]

/-- C8 witness at a concrete input. -/
theorem C8_profile_no_create_witness :
    get_profile emptyDB 5
      = (Except.ok { registered := false, completedStocks := 0, user := none }, emptyDB) :=
  C8_profile_no_create emptyDB 5 rfl

/-- C9: a `/redeem/{externalId}` request whose admin-identity header value
is not in the configured (non-empty) admin allow-list fails with
Forbidden, and the state — in particular the guest's ledger — is
unchanged. -/
theorem C9_redeem_forbidden (cfg : Settings) (db : DB) (guest admin : Int)
    (hconf : cfg.ADMIN_IDS ≠ []) (hnot : cfg.ADMIN_IDS.contains admin = false) :
    redeem_core cfg db guest admin
      = (Except.error (ApiError.forbidden "Insufficient permissions"), db) := by
  have he : cfg.ADMIN_IDS.isEmpty = false := List.isEmpty_eq_false.mpr hconf
  have hnm : admin ∉ cfg.ADMIN_IDS := by simpa using hnot
  unfold redeem_core
  simp [he, hnm]

/-- C9 witness at a concrete input: allow-list `[10]`, caller id `4`. -/
theorem C9_redeem_forbidden_witness :
    redeem_core { defaultSettings with ADMIN_IDS := [10] } emptyDB 3 4
      = (Except.error (ApiError.forbidden "Insufficient permissions"), emptyDB) :=
  C9_redeem_forbidden { defaultSettings with ADMIN_IDS := [10] } emptyDB 3 4
    (by decide) (by decide)

/-- C10: the read endpoints `GET /api/stocks/{externalId}` and
`GET /api/free-hookahs/{externalId}` are not read-only: for a never-seen
externalId (with the fresh primary key unused in the ledger) each creates
a User record with empty profile fields, and returns an empty summary
(zero pending, zero completed) resp. a zero free-hookah count. -/
theorem C10_read_creates_user (db : DB) (tg : Int)
    (hnew : db.users.find? (fun u => u.tg_id == tg) = none)
    (hfresh : ∀ s ∈ db.stocks, s.user_id ≠ db.nextUserId) :
    get_stock db tg
      = (Except.ok { stocks := [], total := 0, completed := 0, available := 0 },
         { db with
           users := db.users ++ [{ id := db.nextUserId, tg_id := tg, first_name := none
                                 , last_name := none, phone := none, username := none }]
           nextUserId := db.nextUserId + 1 })
    ∧ get_free_hookahs db tg
      = (Except.ok 0,
         { db with
           users := db.users ++ [{ id := db.nextUserId, tg_id := tg, first_name := none
                                 , last_name := none, phone := none, username := none }]
           nextUserId := db.nextUserId + 1 }) := by
  have hadd : add_user db tg
      = ({ id := db.nextUserId, tg_id := tg, first_name := none
         , last_name := none, phone := none, username := none },
         { db with
           users := db.users ++ [{ id := db.nextUserId, tg_id := tg, first_name := none
                                 , last_name := none, phone := none, username := none }]
           nextUserId := db.nextUserId + 1 }) := by
    unfold add_user
    rw [hnew]
  have hstocks : ((add_user db tg).2).stocks = db.stocks := add_user_stocks db tg
  have hgs : get_stocks (add_user db tg).2 db.nextUserId = [] := by
    rw [get_stocks_of_stocks_eq hstocks]
    exact get_stocks_fresh db db.nextUserId hfresh
  have hcc : completedCount (add_user db tg).2 db.nextUserId = 0 := by
    rw [completedCount_of_stocks_eq hstocks]
    exact completedCount_fresh db db.nextUserId hfresh
  rw [hadd] at hgs hcc
  constructor
  · unfold get_stock mkSummary get_stocks_summary
    rw [hadd]
    simp [hgs, hcc]
  · unfold get_free_hookahs get_stocks_summary
    rw [hadd]
    simp [hgs]

/-- C10 witness at a concrete input. -/
theorem C10_read_creates_user_witness :
    get_stock emptyDB 9
      = (Except.ok { stocks := [], total := 0, completed := 0, available := 0 },
         { users := [{ id := 0, tg_id := 9, first_name := none, last_name := none
                     , phone := none, username := none }]
         , stocks := [], nextUserId := 1, nextStockId := 0 })
    ∧ get_free_hookahs emptyDB 9
      = (Except.ok 0,
         { users := [{ id := 0, tg_id := 9, first_name := none, last_name := none
                     , phone := none, username := none }]
         , stocks := [], nextUserId := 1, nextStockId := 0 }) :=
  C10_read_creates_user emptyDB 9 rfl (by simp [emptyDB])

/-- C4: an upsert-registration request carrying a non-empty, valid phone
that is already held by a different account (the phone's owner exists and
either the caller has no row or the owner's primary key differs) fails
with Conflict and mutates nothing — on both the raw-body path and the
typed-payload path of `POST /api/register`. -/
theorem C4_phone_conflict (db : DB) (ph : String) :
    (∀ (b : RawBody) (tg : Int), b.tg_id = some tg → tg ≠ 0 → b.phone = some ph →
        5 ≤ (strip ph).length → phoneConflict db tg ph = true →
        register_user db none (some b)
          = (Except.error (ApiError.conflict "Phone already in use"), db))
    ∧ (∀ p : RegisterPayload, p.phone = some ph → ph ≠ "" →
        phoneConflict db p.tg_id ph = true →
        register_user db (some p) none
          = (Except.error (ApiError.conflict "Phone already in use"), db)) := by
  constructor
  · intro b tg htg h0 hph hlen hconf
    have hne : ph ≠ "" := by
      intro he
      rw [he] at hlen
      exact absurd hlen (by decide)
    have h0' : (tg == 0) = false := by simp [h0]
    have hlen' : ¬ (strip ph).length < 5 := by omega
    have hne' : (ph != "") = true := by simp [hne]
    show register_raw db b = _
    unfold register_raw
    rw [htg, hph]
    simp only [Option.getD_some, h0', Bool.false_eq_true, if_false, hlen', hne', if_true,
      hconf, if_pos]
  · intro p hph hne hconf
    have hne' : (ph != "") = true := by simp [hne]
    show register_typed db p = _
    unfold register_typed
    rw [hph]
    simp only [hne', if_true, hconf, if_pos]

/-- C4 witness at a concrete input: user 1 holds phone `12345`; user 2
tries to register with the same phone through the raw-body path. -/
theorem C4_phone_conflict_witness :
    register_user
        { users := [{ id := 0, tg_id := 1, first_name := some "", last_name := some ""
                    , phone := some "12345", username := none }]
        , stocks := [], nextUserId := 1, nextStockId := 0 }
        none
        (some { tg_id := some 2, first_name := none, last_name := none
              , phone := some "12345", username := none })
      = (Except.error (ApiError.conflict "Phone already in use"),
         { users := [{ id := 0, tg_id := 1, first_name := some "", last_name := some ""
                     , phone := some "12345", username := none }]
         , stocks := [], nextUserId := 1, nextStockId := 0 }) :=
  (C4_phone_conflict
      { users := [{ id := 0, tg_id := 1, first_name := some "", last_name := some ""
                  , phone := some "12345", username := none }]
      , stocks := [], nextUserId := 1, nextStockId := 0 } "12345").1
    { tg_id := some 2, first_name := none, last_name := none
    , phone := some "12345", username := none }
    2 rfl (by decide) rfl (by decide) (by decide)

/-- C6 (counterexample): a registration request through the typed-payload
path carrying the phone `"12"` — which passes the pydantic format
validator but is shorter than 5 characters after trimming — does not fail
with a validation error: it succeeds and stores the short phone. -/
theorem C6_counterexample :
    validate_phone (some "12") = true
    ∧ (strip "12").length < 5
    ∧ (register_user emptyDB
        (some { tg_id := 1, first_name := none, last_name := none
              , phone := some "12", username := none }) none).1
      = Except.ok { id := 0, tg_id := 1, first_name := none, last_name := none
                  , phone := some "12", username := none }
    ∧ ((register_user emptyDB
        (some { tg_id := 1, first_name := none, last_name := none
              , phone := some "12", username := none }) none).2).users.length = 1 :=
  ⟨by decide, by decide, rfl, rfl⟩

/-- C6 (amended): the phone-length validation (at least 5 characters after
stripping whitespace, else 422 before any mutation) holds only on the
raw-body fallback path of `POST /api/register`; the typed-payload path
checks only the pydantic digit format and accepts shorter phones. -/
theorem C6_amended (db : DB) (b : RawBody) (s : String)
    (hb : b.phone = some s) (hlen : (strip s).length < 5) :
    (register_user db none (some b)).2 = db
    ∧ ∃ d, (register_user db none (some b)).1 = Except.error (ApiError.unprocessable d) := by
  have hmain : ∃ d, register_raw db b = (Except.error (ApiError.unprocessable d), db) := by
    unfold register_raw
    rw [hb]
    cases htg : b.tg_id with
    | none => exact ⟨"tg_id is required", rfl⟩
    | some tg =>
      by_cases h0 : (tg == 0) = true
      · exact ⟨"tg_id is required", by simp only [Option.getD_some, h0, if_true]⟩
      · exact ⟨"phone is invalid",
          by simp only [Option.getD_some, h0, Bool.false_eq_true, if_false, hlen, if_true]⟩
  obtain ⟨d, hd⟩ := hmain
  have hreg : register_user db none (some b) = (Except.error (ApiError.unprocessable d), db) := hd
  exact ⟨by rw [hreg], d, by rw [hreg]⟩

/-- C6 (amended) witness at a concrete input. -/
theorem C6_amended_witness :
    (register_user emptyDB none
        (some { tg_id := some 1, first_name := none, last_name := none
              , phone := some "12", username := none })).2 = emptyDB
    ∧ ∃ d, (register_user emptyDB none
        (some { tg_id := some 1, first_name := none, last_name := none
              , phone := some "12", username := none })).1
      = Except.error (ApiError.unprocessable d) :=
  C6_amended emptyDB
    { tg_id := some 1, first_name := none, last_name := none
    , phone := some "12", username := none }
    "12" rfl (by decide)

/-- C7: calling the registration upsert twice in succession with identical
arguments yields the same stored profile after each call — the second call
returns exactly the user record the first call stored — and in particular
never fails with Conflict on the second call.  This holds on both branches
of `POST /api/register`: the raw-body fallback and the typed pydantic
payload path that goes through `rq.update_user_profile`. -/
theorem C7_register_idempotent (db : DB) (b : RawBody) (p : RegisterPayload)
    (u1 u2 : User) (db1 db2 : DB) :
    (register_user db none (some b) = (Except.ok u1, db1) →
        (register_user db1 none (some b)).1 = Except.ok u1)
    ∧ (register_user db (some p) none = (Except.ok u2, db2) →
        (register_user db2 (some p) none).1 = Except.ok u2) := by
  constructor
  · intro h
    replace h : register_raw db b = (Except.ok u1, db1) := h
    show (register_raw db1 b).1 = Except.ok u1
    unfold register_raw at h
    simp only [] at h
    split at h
    · simp at h
    · rename_i tg htg
      split at h
      · simp at h
      · rename_i h0
        split at h
        · simp at h
        · rename_i hlen
          split at h
          · rename_i hne
            split at h
            · simp at h
            · rename_i hcf
              have hcf' : phoneConflict db tg (b.phone.getD "") = false := by
                simpa using hcf
              split at h
              · rename_i user hfind
                rw [Prod.mk.injEq] at h
                obtain ⟨hu, hdb⟩ := h
                rw [Except.ok.injEq] at hu
                subst hdb
                subst hu
                exact register_raw_roundtrip_update db b tg user _ rfl htg h0 hlen hne hfind hcf'
              · rename_i hfind
                rw [Prod.mk.injEq] at h
                obtain ⟨hu, hdb⟩ := h
                rw [Except.ok.injEq] at hu
                subst hdb
                subst hu
                exact register_raw_roundtrip_create db b tg _ rfl htg h0 hlen hne hfind hcf'
          · rename_i hne
            have hempty : b.phone.getD "" = "" := by simpa using hne
            rw [hempty] at hlen
            exact absurd (by decide) hlen
  · intro h
    replace h : register_typed db p = (Except.ok u2, db2) := h
    show (register_typed db2 p).1 = Except.ok u2
    unfold register_typed update_user_profile at h
    simp only [] at h
    split at h
    · simp at h
    · rename_i hcf
      split at h
      · rename_i hfind
        dsimp only at h
        rw [Prod.mk.injEq] at h
        obtain ⟨hu, hdb⟩ := h
        rw [Except.ok.injEq] at hu
        subst hdb
        subst hu
        exact register_typed_roundtrip_create db p _ rfl hcf hfind
      · rename_i user hfind
        dsimp only at h
        rw [Prod.mk.injEq] at h
        obtain ⟨hu, hdb⟩ := h
        rw [Except.ok.injEq] at hu
        subst hdb
        subst hu
        exact register_typed_roundtrip_update db p user _ rfl hcf hfind

/-- C7 witness at concrete inputs: registering the same raw body twice,
and registering the same typed payload twice, both from the empty
database. -/
theorem C7_register_idempotent_witness :
    ((register_user
        { users := [{ id := 0, tg_id := 1, first_name := some "A", last_name := some ""
                    , phone := some "12345", username := some "h" }]
        , stocks := [], nextUserId := 1, nextStockId := 0 }
        none
        (some { tg_id := some 1, first_name := some "A", last_name := none
              , phone := some "12345", username := some "h" })).1
      = Except.ok { id := 0, tg_id := 1, first_name := some "A", last_name := some ""
                  , phone := some "12345", username := some "h" })
    ∧ ((register_user
        { users := [{ id := 0, tg_id := 2, first_name := some "B", last_name := none
                    , phone := some "54321", username := none }]
        , stocks := [], nextUserId := 1, nextStockId := 0 }
        (some { tg_id := 2, first_name := some "B", last_name := none
              , phone := some "54321", username := none })
        none).1
      = Except.ok { id := 0, tg_id := 2, first_name := some "B", last_name := none
                  , phone := some "54321", username := none }) :=
  ⟨(C7_register_idempotent emptyDB
      { tg_id := some 1, first_name := some "A", last_name := none
      , phone := some "12345", username := some "h" }
      { tg_id := 2, first_name := some "B", last_name := none
      , phone := some "54321", username := none }
      { id := 0, tg_id := 1, first_name := some "A", last_name := some ""
      , phone := some "12345", username := some "h" }
      { id := 0, tg_id := 2, first_name := some "B", last_name := none
      , phone := some "54321", username := none }
      { users := [{ id := 0, tg_id := 1, first_name := some "A", last_name := some ""
                  , phone := some "12345", username := some "h" }]
      , stocks := [], nextUserId := 1, nextStockId := 0 }
      { users := [{ id := 0, tg_id := 2, first_name := some "B", last_name := none
                  , phone := some "54321", username := none }]
      , stocks := [], nextUserId := 1, nextStockId := 0 }).1 rfl,
   (C7_register_idempotent emptyDB
      { tg_id := some 1, first_name := some "A", last_name := none
      , phone := some "12345", username := some "h" }
      { tg_id := 2, first_name := some "B", last_name := none
      , phone := some "54321", username := none }
      { id := 0, tg_id := 1, first_name := some "A", last_name := some ""
      , phone := some "12345", username := some "h" }
      { id := 0, tg_id := 2, first_name := some "B", last_name := none
      , phone := some "54321", username := none }
      { users := [{ id := 0, tg_id := 1, first_name := some "A", last_name := some ""
                  , phone := some "12345", username := some "h" }]
      , stocks := [], nextUserId := 1, nextStockId := 0 }
      { users := [{ id := 0, tg_id := 2, first_name := some "B", last_name := none
                  , phone := some "54321", username := none }]
      , stocks := [], nextUserId := 1, nextStockId := 0 }).2 rfl⟩

end AppBack
